import Mathlib

/-!
Verification of the crypto pre-dip screener (src/app.py) against its
specification.

The source is one Python/streamlit script.  Its screening engine is embedded
shallowly below:

* prices and volumes are exact rationals; where the source's pandas/numpy
  float pipeline can produce infinities or NaN (the RSI block), values live in
  `PF`, an IEEE-754-style type of exact rationals extended with `pinf`, `ninf`
  and `nan`.  Every identity the theorems rely on (negation distributing over
  a rolling sum, `x / -x = -1`, division of a positive number by zero giving
  `pinf`) is exact in IEEE-754 double arithmetic as well, so no rounding model
  is needed;
* network I/O is an oracle argument: `fetch_ohlcv` consumes the list of
  outcomes of its (up to 3) HTTP attempts, and `run_screening` consumes the
  already-fetched candle list per call site, `[]` being exactly what the
  source's `fetch_ohlcv` hands back on failure or on an empty response;
* `st.cache_data` (which the source puts on `load_symbols` only) is modelled
  by `cacheComputes`, explicit in time.
-/

namespace CryptoScreener

/-- Config constants, src/app.py lines 9-14. -/
def REFRESH_MIN : ℕ := 15

/-- Lookback window, `ATR_LEN = 96` in the source. -/
def ATR_LEN : ℕ := 96

/-- `BODY_FCTR = 0.3`. -/
def BODY_FCTR : ℚ := 3 / 10

/-- `VOL_MULT = 2.5`. -/
def VOL_MULT : ℚ := 5 / 2

/-- IEEE-754-style scalar: an exact rational plus the special values.  Used
for the source's float pipeline where infinities or NaN can arise.  The model
has a single (positive) zero; every division by zero this program reaches has
a nonnegative dividend, so the sign of zero never matters. -/
inductive PF where
  | fin (q : ℚ)
  | pinf
  | ninf
  | nan
deriving DecidableEq, Repr

namespace PF

/-- IEEE negation. -/
def neg : PF → PF
  | fin q => fin (-q)
  | pinf => ninf
  | ninf => pinf
  | nan => nan

/-- IEEE addition (exact on finite values). -/
def add : PF → PF → PF
  | nan, _ => nan
  | _, nan => nan
  | fin a, fin b => fin (a + b)
  | fin _, pinf => pinf
  | fin _, ninf => ninf
  | pinf, fin _ => pinf
  | ninf, fin _ => ninf
  | pinf, pinf => pinf
  | ninf, ninf => ninf
  | pinf, ninf => nan
  | ninf, pinf => nan

/-- IEEE subtraction. -/
def sub (a b : PF) : PF := add a (neg b)

/-- IEEE division: finite/0 gives a signed infinity, 0/0 gives NaN. -/
def div : PF → PF → PF
  | nan, _ => nan
  | _, nan => nan
  | fin a, fin b =>
      if b = 0 then (if a = 0 then nan else if 0 < a then pinf else ninf)
      else fin (a / b)
  | fin _, pinf => fin 0
  | fin _, ninf => fin 0
  | pinf, fin b => if 0 ≤ b then pinf else ninf
  | ninf, fin b => if 0 ≤ b then ninf else pinf
  | pinf, pinf => nan
  | pinf, ninf => nan
  | ninf, pinf => nan
  | ninf, ninf => nan

/-- IEEE comparison: any comparison against NaN is false. -/
def lt : PF → PF → Bool
  | fin a, fin b => decide (a < b)
  | fin _, pinf => true
  | ninf, fin _ => true
  | ninf, pinf => true
  | _, _ => false

/-- Sum of a list of IEEE scalars (NaN-absorbing, exact on finite values). -/
def listSum (l : List PF) : PF := l.foldl add (fin 0)

end PF

/-- One raw kline row of the Binance response: the source keeps columns
`ts,o,h,l,c,v` and six unused extras (`x1`..`x6`). -/
structure Kline where
  ts : ℕ
  o : ℚ
  h : ℚ
  l : ℚ
  c : ℚ
  v : ℚ
  extra : List ℚ
deriving DecidableEq, Repr

/-- One bar of the parsed frame: the columns `run_screening` consumes. -/
structure Candle where
  ts : ℕ
  o : ℚ
  h : ℚ
  l : ℚ
  c : ℚ
  v : ℚ
deriving DecidableEq, Repr

/-- The `astype(float)` / `to_datetime` step of `fetch_ohlcv`, per row. -/
def parseKline (k : Kline) : Candle := ⟨k.ts, k.o, k.h, k.l, k.c, k.v⟩

/-- Outcome of one HTTP attempt inside `fetch_ohlcv`: a successful
response carrying the decoded kline rows, or any raised error (HTTPError,
timeout, JSON failure) which the source catches and retries. -/
inductive FetchAttempt where
  | ok (data : List Kline)
  | err
deriving DecidableEq, Repr

/-- `fetch_ohlcv` (src/app.py lines 55-80) over the list of its attempt
outcomes (the source tries `retries = 3` times): the first successful attempt
returns the parsed frame — the empty frame when the response body is empty
("No data returned") — and exhausting the attempts returns the empty frame
(`return pd.DataFrame()`).  There is no error channel in the return type,
exactly as in the source. -/
def fetch_ohlcv : List FetchAttempt → List Candle
  | [] => []
  | FetchAttempt.ok data :: _ => if data.isEmpty then [] else data.map parseKline
  | FetchAttempt.err :: rest => fetch_ohlcv rest

/-- Number of upstream HTTP requests the same loop issues: one per attempt
until the first success. -/
def fetch_requests : List FetchAttempt → ℕ
  | [] => 0
  | FetchAttempt.ok _ :: _ => 1
  | FetchAttempt.err :: rest => fetch_requests rest + 1

/-- `load_symbols` (src/app.py lines 41-53): the hardcoded universe.  The
`except` branch of the source cannot be reached (the body only builds this
constant and writes a status line). -/
def load_symbols : List String :=
  ["BTCUSDT", "ETHUSDT", "ADAUSDT", "BNBUSDT", "XRPUSDT"]

/-- Model of the `st.cache_data(ttl=...)` decorator that the source puts on
`load_symbols` (and on nothing else): given the stored-at time of the cached
entry (none at process start) and the times of the successive lookups, count
how many lookups actually run the wrapped function.  An entry is served while
`now < storedAt + ttl`. -/
def cacheComputes (ttl : ℕ) : Option ℕ → List ℕ → ℕ
  | _, [] => 0
  | none, t :: ts => cacheComputes ttl (some t) ts + 1
  | some t0, t :: ts =>
      if t < t0 + ttl then cacheComputes ttl (some t0) ts
      else cacheComputes ttl (some t) ts + 1

/-- Computes of `load_symbols` for a list of lookup times, from a cold cache:
its TTL is `REFRESH_MIN * 60` seconds. -/
def load_symbols_computes (times : List ℕ) : ℕ :=
  cacheComputes (REFRESH_MIN * 60) none times

/-- Upstream requests issued by two candle lookups (the source's
`fetch_ohlcv` carries no cache decorator, so each lookup runs the full
fetch loop regardless of how recently the same key was fetched). -/
def twoCandleLookups (a1 a2 : List FetchAttempt) : ℕ :=
  fetch_requests a1 + fetch_requests a2

/-- Arithmetic mean of a rational list (the empty case is never reached
behind the source's length gates). -/
def ratMean (l : List ℚ) : ℚ := l.sum / l.length

/-- `df.c.pct_change()`: first entry NaN, entry i is `c_i / c_(i-1) - 1`. -/
def pct_change (cs : List ℚ) : List PF :=
  match cs with
  | [] => []
  | c0 :: rest =>
      PF.nan ::
        List.zipWith (fun prev cur => PF.sub (PF.div (PF.fin cur) (PF.fin prev)) (PF.fin 1))
          (c0 :: rest) rest

/-- `.fillna(0)`. -/
def fillna0 (l : List PF) : List PF :=
  l.map fun x => if x = PF.nan then PF.fin 0 else x

/-- `.replace([np.inf, -np.inf], np.nan)`. -/
def replaceInf (l : List PF) : List PF :=
  l.map fun x =>
    match x with
    | PF.pinf => PF.nan
    | PF.ninf => PF.nan
    | y => y

/-- `.rolling(w).mean()`: NaN while fewer than `w` values are available,
otherwise the mean of the trailing window of `w`. -/
def rollingMean (w : ℕ) (xs : List PF) : List PF :=
  (List.range xs.length).map fun i =>
    if i + 1 < w then PF.nan
    else PF.div (PF.listSum ((xs.take (i + 1)).drop (i + 1 - w))) (PF.fin w)

/-- The RSI block of `run_screening` (src/app.py lines 146-153) applied to the
already-built `gain` column: `delta = gain.rolling(14).mean()`,
`loss = (-gain).rolling(14).mean()`, `rs = delta / loss` cleaned of
infinities and NaN, `rsi = 100 - 100 / (1 + rs)`, last entry (50 if the
column is empty). -/
def rsiFromGain (gain : List PF) : PF :=
  let delta := rollingMean 14 gain
  let loss := rollingMean 14 (gain.map PF.neg)
  let rs := fillna0 (replaceInf (List.zipWith PF.div delta loss))
  let rsi := rs.map fun r => PF.sub (PF.fin 100) (PF.div (PF.fin 100) (PF.add (PF.fin 1) r))
  rsi.getLast?.getD (PF.fin 50)

/-- The full RSI value of a close column:
`gain = df.c.pct_change().fillna(0)` then the block above. -/
def rsi_val (closes : List ℚ) : PF :=
  rsiFromGain (fillna0 (pct_change closes))

/-- True range of a bar given the previous close, and its series (the first
bar has no previous close and contributes nothing). -/
def trueRanges (series : List Candle) : List ℚ :=
  match series with
  | [] => []
  | c0 :: rest =>
      List.zipWith
        (fun prev cur => max (cur.h - cur.l) (max |cur.h - prev.c| |cur.l - prev.c|))
        (c0 :: rest) rest

/-- Modelled from the spec: the external `ta.volatility.AverageTrueRange`
collaborator (a third-party library, not part of this repository) — ATR is
the rolling mean of the true range over the window, taken at the last bar.
No claim depends on its numeric value; only on it being a function of the
series. -/
def averageTrueRange (series : List Candle) (w : ℕ) : ℚ :=
  let trs := trueRanges series
  ratMean (trs.drop (trs.length - w))

/-- The per-symbol scalar bundle the loop body of `run_screening` derives
before scoring (src/app.py lines 129-153). -/
structure Indicators where
  close : ℚ
  vol : ℚ
  base : ℚ
  atr : ℚ
  vavg : ℚ
  rsiVal : PF
deriving DecidableEq, Repr

/-- Lines 125-153 of `run_screening`: the gates and the indicator snapshot.
`df.empty or len(df) < ATR_LEN` is one test on the length; the
`pd.isna([base, atr, vavg])` guard of the source cannot fire for a series of
finite values that passed the length gate (means of nonempty finite lists),
so it has no branch here; the `len(gain) < 14` gate is kept even though the
earlier gate subsumes it. -/
def computeIndicators (series : List Candle) : Option Indicators :=
  if series.length < ATR_LEN then none
  else
    let closes := series.map Candle.c
    let vols := series.map Candle.v
    let close := closes.getLast?.getD 0
    let vol := vols.getLast?.getD 0
    let base := ratMean (closes.drop (closes.length - ATR_LEN))
    let atr := averageTrueRange series ATR_LEN
    let vavg := ratMean (vols.drop (vols.length - ATR_LEN))
    let gain := fillna0 (pct_change closes)
    if gain.length < 14 then none
    else some ⟨close, vol, base, atr, vavg, rsiFromGain gain⟩

/-- `cond1 = btcBelow`. -/
def cond1 (btcBelow : Bool) : Bool := btcBelow

/-- `cond2 = close < base - BODY_FCTR * atr and vol > vavg * VOL_MULT`. -/
def cond2 (ind : Indicators) : Bool :=
  decide (ind.close < ind.base - BODY_FCTR * ind.atr) && decide (ind.vavg * VOL_MULT < ind.vol)

/-- `cond3 = rsi_val < 30`. -/
def cond3 (ind : Indicators) : Bool := PF.lt ind.rsiVal (PF.fin 30)

/-- `score = sum(conditions)`. -/
def score (k1 k2 k3 : Bool) : ℕ := k1.toNat + k2.toNat + k3.toNat

/-- The label dict `{3: "🚨 FULL PRE-DIP", 2: "⚠️ NEAR-DIP", 1: "🔥 WARM-DIP"}[score]`,
looked up only behind `score >= 1` (and `score ≤ 3` always), so the lookup is
total there. -/
def stateOf (sc : ℕ) : String :=
  if sc = 3 then "🚨 FULL PRE-DIP" else if sc = 2 then "⚠️ NEAR-DIP" else "🔥 WARM-DIP"

/-- One appended row of `rows` (src/app.py lines 164-172). -/
structure Row where
  symbol : String
  score : ℕ
  cond1 : Bool
  cond2 : Bool
  cond3 : Bool
  rsi : PF
  state : String
deriving DecidableEq, Repr

/-- Lines 155-172: evaluate the three conditions on a snapshot, score, and
append a row exactly when `score >= 1`. -/
def mkRow (btcBelow : Bool) (s : String) (ind : Indicators) : Option Row :=
  if 1 ≤ score (cond1 btcBelow) (cond2 ind) (cond3 ind) then
    some ⟨s, score (cond1 btcBelow) (cond2 ind) (cond3 ind), cond1 btcBelow, cond2 ind,
          cond3 ind, ind.rsiVal, stateOf (score (cond1 btcBelow) (cond2 ind) (cond3 ind))⟩
  else none

/-- One iteration of the screening loop for symbol `s` whose fetch produced
`series` (a failed or empty fetch produced `[]`): either a row or a skip. -/
def processSymbol (btcBelow : Bool) (s : String) (series : List Candle) : Option Row :=
  match computeIndicators series with
  | none => none
  | some ind => mkRow btcBelow s ind

/-- Last value of `xs.ewm(span=span).mean()` (pandas default `adjust=True`):
weights `(1-α)^i` on the i-th most recent value, `α = 2/(span+1)`. -/
def ewmLast (span : ℕ) (xs : List ℚ) : ℚ :=
  let a : ℚ := 2 / (span + 1)
  let p := xs.foldl (fun (nd : ℚ × ℚ) x => (x + (1 - a) * nd.1, 1 + (1 - a) * nd.2)) (0, 0)
  p.1 / p.2

/-- `fetch_btc_trend` (src/app.py lines 99-106) on the outcome of its
BTCUSDT 4h fetch (`[]` when the fetch failed): `(0.0, 0.0, False)` when the
frame is empty or shorter than 22 bars, else the last close, the EMA-21 and
whether close < ema. -/
def fetch_btc_trend (df : List Candle) : ℚ × ℚ × Bool :=
  if df.length < 22 then (0, 0, false)
  else
    let closes := df.map Candle.c
    let close := closes.getLast?.getD 0
    let ema := ewmLast 21 closes
    (close, ema, decide (close < ema))

/-- The unsorted `rows` list of one run: the loop over `load_symbols`,
skips dropped. -/
def screenRows (btcBelow : Bool) (symFetch : String → List Candle) : List Row :=
  load_symbols.filterMap fun s => processSymbol btcBelow s (symFetch s)

/-- Stable insertion (ascending by score): models one step of numpy's
small-array insertion sort, which `argsort(kind="quicksort")` uses for the
at-most-5-row frames this program builds. -/
def insertAsc (r : Row) : List Row → List Row
  | [] => [r]
  | x :: xs => if x.score < r.score then x :: insertAsc r xs else r :: x :: xs

/-- Stable ascending sort by score. -/
def sortAsc (l : List Row) : List Row := l.foldr insertAsc []

/-- `df_all.sort_values("Score", ascending=False)`: pandas `nargsort` runs a
stable ascending argsort and then reverses the indexer for
`ascending=False`, so equal scores end up in reverse insertion order. -/
def sortRows (l : List Row) : List Row := (sortAsc l).reverse

/-- The triple `run_screening` returns: the (sorted) frame and the two BTC
trend scalars. -/
structure RunOutput where
  rows : List Row
  btcClose : ℚ
  btcEma21 : ℚ
deriving Repr

/-- `run_screening` (src/app.py lines 108-185) over its fetch outcomes:
`btcFetch` is what `fetch_ohlcv("BTCUSDT", BTC_TF, 22)` produced and
`symFetch s` what `fetch_ohlcv(s, PAIR_TF)` produced for each symbol (`[]`
on failure, per `fetch_ohlcv`).  The `if not syms` early return is kept;
sorting an empty frame is skipped in the source but equals sorting here. -/
def run_screening (btcFetch : List Candle) (symFetch : String → List Candle) : RunOutput :=
  let t := fetch_btc_trend btcFetch
  if load_symbols.isEmpty then ⟨[], t.1, t.2.1⟩
  else ⟨sortRows (screenRows t.2.2 symFetch), t.1, t.2.1⟩

/-- The snapshot ordering the spec claims: score strictly descending, ties
broken by symbol name ascending. -/
def resultOrdered (rows : List Row) : Prop :=
  rows.Pairwise fun a b => b.score < a.score ∨ (a.score = b.score ∧ a.symbol < b.symbol)

/-- Flat demo bar: constant price 100, volume 10. -/
def demoCandle (i : ℕ) : Candle := ⟨i, 100, 100, 100, 100, 10⟩

/-- 98 flat bars (the source fetches `ATR_LEN + 2 = 98`). -/
def demoSeries : List Candle := (List.range 98).map demoCandle

/-- Strictly rising demo bar: price 100 + i, volume 10. -/
def risingCandle (i : ℕ) : Candle := ⟨i, 100 + i, 100 + i, 100 + i, 100 + i, 10⟩

/-- 98 strictly rising bars. -/
def risingSeries : List Candle := (List.range 98).map risingCandle

/-- A flat close column of RSI-window length: every close-to-close loss is
zero. -/
def flatCloses : List ℚ := List.replicate 16 100

/-- The close column of the rising series. -/
def risingCloses : List ℚ := risingSeries.map Candle.c

/-- The row every symbol gets on the flat demo series with the trend signal
down: only `cond3` fires (the broken RSI evaluates to 0 there), score 1. -/
def demoRow (s : String) : Row := ⟨s, 1, false, false, true, PF.fin 0, "🔥 WARM-DIP"⟩

/-- Oracle: every symbol fetch returns the flat demo series. -/
def symFetchAll : String → List Candle := fun _ => demoSeries

/-- Oracle: symbol `s0` fails its fetch (empty frame), everyone else gets the
flat demo series. -/
def symFetchDrop (s0 : String) : String → List Candle :=
  fun t => if t = s0 then [] else demoSeries

/-- One demo kline row. -/
def demoKline : Kline := ⟨0, 100, 100, 100, 100, 10, []⟩

/-- The snapshot of the spec's worked example: close 98, baseline 100, atr 5,
volume 300, volume average 100, rsi 22. -/
def exampleInd : Indicators := ⟨98, 300, 100, 5, 100, PF.fin 22⟩

/-! Helper lemmas shared by the claim theorems. -/

/-- Unfolding step of the stable sort. -/
theorem sortAsc_cons (x : Row) (xs : List Row) : sortAsc (x :: xs) = insertAsc x (sortAsc xs) :=
  rfl

/-- Insertion permutes. -/
theorem insertAsc_perm (r : Row) (l : List Row) : (insertAsc r l).Perm (r :: l) := by
  induction l with
  | nil => exact List.Perm.refl _
  | cons x xs ih =>
      rw [insertAsc]
      by_cases hx : x.score < r.score
      · rw [if_pos hx]
        exact (ih.cons x).trans (List.Perm.swap r x xs)
      · rw [if_neg hx]

/-- The stable ascending sort permutes. -/
theorem sortAsc_perm (l : List Row) : (sortAsc l).Perm l := by
  induction l with
  | nil => exact List.Perm.refl _
  | cons x xs ih =>
      rw [sortAsc_cons]
      exact (insertAsc_perm x (sortAsc xs)).trans (ih.cons x)

/-- The frame sort permutes. -/
theorem sortRows_perm (l : List Row) : (sortRows l).Perm l := by
  rw [sortRows]
  exact (List.reverse_perm (sortAsc l)).trans (sortAsc_perm l)

/-- Insertion keeps the list ascending by score. -/
theorem insertAsc_pairwise (r : Row) {l : List Row}
    (h : l.Pairwise fun a b => a.score ≤ b.score) :
    (insertAsc r l).Pairwise fun a b => a.score ≤ b.score := by
  induction l with
  | nil => simp [insertAsc]
  | cons x xs ih =>
      rw [insertAsc]
      rw [List.pairwise_cons] at h
      by_cases hx : x.score < r.score
      · rw [if_pos hx]
        rw [List.pairwise_cons]
        refine ⟨?_, ih h.2⟩
        intro y hy
        rcases List.mem_cons.mp ((insertAsc_perm r xs).subset hy) with rfl | hyx
        · exact Nat.le_of_lt hx
        · exact h.1 y hyx
      · rw [if_neg hx]
        have hrx : r.score ≤ x.score := Nat.le_of_not_lt hx
        rw [List.pairwise_cons, List.pairwise_cons]
        refine ⟨?_, h.1, h.2⟩
        intro y hy
        rcases List.mem_cons.mp hy with rfl | hyx
        · exact hrx
        · exact hrx.trans (h.1 y hyx)

/-- The stable sort is ascending by score. -/
theorem sortAsc_pairwise (l : List Row) :
    (sortAsc l).Pairwise fun a b => a.score ≤ b.score := by
  induction l with
  | nil => simp [sortAsc]
  | cons x xs ih => rw [sortAsc_cons]; exact insertAsc_pairwise x ih

/-- The published frame is descending by score. -/
theorem sortRows_pairwise (l : List Row) :
    (sortRows l).Pairwise fun a b => b.score ≤ a.score := by
  rw [sortRows, List.pairwise_reverse]
  exact sortAsc_pairwise l

/-- Insertion and an equal-score filter: the inserted row lands in front. -/
theorem filter_insertAsc (k : ℕ) (r : Row) (l : List Row) :
    (insertAsc r l).filter (fun y => y.score == k) =
      if r.score == k then r :: l.filter (fun y => y.score == k)
      else l.filter (fun y => y.score == k) := by
  induction l with
  | nil => rw [insertAsc]; rw [List.filter_cons]
  | cons x xs ih =>
      rw [insertAsc]
      by_cases hx : x.score < r.score
      · rw [if_pos hx]
        rw [List.filter_cons, ih, List.filter_cons]
        by_cases hrk : r.score = k
        · have hxk : ¬ (x.score = k) := by omega
          simp [hrk, hxk]
        · simp [hrk]
      · rw [if_neg hx]
        rw [List.filter_cons]

/-- Stability of the ascending sort: rows of one score keep their order. -/
theorem filter_sortAsc (k : ℕ) (l : List Row) :
    (sortAsc l).filter (fun y => y.score == k) = l.filter (fun y => y.score == k) := by
  induction l with
  | nil => rfl
  | cons x xs ih =>
      rw [sortAsc_cons, filter_insertAsc, List.filter_cons]
      by_cases hxk : x.score = k
      · simp [hxk, ih]
      · simp [hxk, ih]

/-- Rows of one score come out of the frame sort in reverse insertion
order (the `ascending=False` indexer reversal). -/
theorem filter_sortRows (k : ℕ) (l : List Row) :
    (sortRows l).filter (fun y => y.score == k) =
      (l.filter (fun y => y.score == k)).reverse := by
  rw [sortRows, List.filter_reverse, filter_sortAsc]

/-- A produced row carries its symbol and the shared trend boolean. -/
theorem processSymbol_fields {b : Bool} {s : String} {series : List Candle} {r : Row}
    (h : processSymbol b s series = some r) : r.symbol = s ∧ r.cond1 = b := by
  rw [processSymbol] at h
  rcases hci : computeIndicators series with _ | ind
  · rw [hci] at h; cases h
  · rw [hci] at h
    simp only [mkRow] at h
    by_cases hsc : 1 ≤ score (cond1 b) (cond2 ind) (cond3 ind)
    · rw [if_pos hsc] at h
      cases h
      exact ⟨rfl, rfl⟩
    · rw [if_neg hsc] at h; cases h

/-- A series shorter than the lookback window is skipped. -/
theorem processSymbol_short {b : Bool} {s : String} {series : List Candle}
    (h : series.length < ATR_LEN) : processSymbol b s series = none := by
  rw [processSymbol, computeIndicators, if_pos h]

/-- Filtering a per-symbol map of the universe by one symbol name picks
exactly the rows the generators equal to that name produced. -/
theorem filterMap_symbol_filter (kf : String → Option Row)
    (hk : ∀ t r, kf t = some r → r.symbol = t) (s : String) (xs : List String) :
    (xs.filterMap kf).filter (fun r => r.symbol == s) =
      (xs.filter (fun t => t == s)).filterMap kf := by
  induction xs with
  | nil => rfl
  | cons x xs ih =>
      rw [List.filterMap_cons, List.filter_cons]
      rcases hx : kf x with _ | r
      · by_cases hxs : x = s
        · subst hxs
          simp only [beq_self_eq_true, if_pos]
          rw [List.filterMap_cons, hx, ih]
        · have : (x == s) = false := beq_eq_false_iff_ne.mpr hxs
          rw [this]
          simp only [Bool.false_eq_true, if_false]
          exact ih
      · have hr : r.symbol = x := hk x r hx
        by_cases hxs : x = s
        · subst hxs
          simp only [beq_self_eq_true, if_pos]
          rw [List.filterMap_cons, hx, List.filter_cons, hr]
          simp only [beq_self_eq_true, if_pos]
          rw [ih]
        · have hxb : (x == s) = false := beq_eq_false_iff_ne.mpr hxs
          rw [hxb]
          simp only [Bool.false_eq_true, if_false]
          rw [List.filter_cons, hr, hxb]
          simp only [Bool.false_eq_true, if_false]
          exact ih

/-- A permutation of a list of at most one element is that list. -/
theorem perm_eq_of_length_le_one {α : Type} {l m : List α} (h : l.Perm m)
    (hm : m.length ≤ 1) : l = m := by
  match m, hm with
  | [], _ => exact List.perm_nil.mp h
  | [a], _ => exact List.perm_singleton.mp h

/-- The universe has no duplicate symbols. -/
theorem load_symbols_nodup : load_symbols.Nodup := by decide

/-- At most one symbol of the universe equals any given name. -/
theorem filter_load_symbols_length (s : String) :
    (load_symbols.filter (fun t => t == s)).length ≤ 1 := by
  rw [← List.countP_eq_length_filter]
  have h := List.nodup_iff_count_le_one.mp load_symbols_nodup s
  rw [List.count] at h
  exact h

/-- The published rows of a run are the sorted loop rows (the universe is
nonempty, so the `if not syms` early return is not taken). -/
theorem run_rows (btcFetch : List Candle) (symFetch : String → List Candle) :
    (run_screening btcFetch symFetch).rows =
      sortRows (screenRows (fetch_btc_trend btcFetch).2.2 symFetch) := rfl

/-- Filtering a run's published rows by a symbol name leaves exactly what
that symbol's own iteration produced. -/
theorem run_filter_symbol (btcFetch : List Candle) (symFetch : String → List Candle)
    (s : String) :
    (run_screening btcFetch symFetch).rows.filter (fun r => r.symbol == s) =
      (load_symbols.filter (fun t => t == s)).filterMap
        (fun t => processSymbol (fetch_btc_trend btcFetch).2.2 t (symFetch t)) := by
  rw [run_rows]
  have hperm :=
    (sortRows_perm (screenRows (fetch_btc_trend btcFetch).2.2 symFetch)).filter
      (fun r => r.symbol == s)
  rw [screenRows] at hperm
  rw [filterMap_symbol_filter
    (fun t => processSymbol (fetch_btc_trend btcFetch).2.2 t (symFetch t))
    (fun t r hp => (processSymbol_fields hp).1) s load_symbols] at hperm
  refine perm_eq_of_length_le_one hperm ?_
  exact le_trans
    (List.length_filterMap_le _ (load_symbols.filter (fun t => t == s)))
    (filter_load_symbols_length s)

set_option maxRecDepth 400000 in
/-- On the flat demo series with the trend signal down, every symbol scores
exactly 1 through the broken oscillator condition. -/
theorem processSymbol_demo (s : String) :
    processSymbol false s demoSeries = some (demoRow s) := by
  with_unfolding_all rfl

set_option maxRecDepth 400000 in
/-- The published rows of the all-flat demo run with the trend fetch failed:
every symbol scores 1 and the `ascending=False` reversal flips the universe
order. -/
theorem run_demo : (run_screening [] symFetchAll).rows =
    [demoRow "XRPUSDT", demoRow "BNBUSDT", demoRow "ADAUSDT",
     demoRow "ETHUSDT", demoRow "BTCUSDT"] := by
  with_unfolding_all rfl

/-- The two trend scalars a run returns come straight from `fetch_btc_trend`. -/
theorem run_btcClose (btcFetch : List Candle) (symFetch : String → List Candle) :
    (run_screening btcFetch symFetch).btcClose = (fetch_btc_trend btcFetch).1 := rfl

/-- The EMA scalar a run returns comes straight from `fetch_btc_trend`. -/
theorem run_btcEma21 (btcFetch : List Candle) (symFetch : String → List Candle) :
    (run_screening btcFetch symFetch).btcEma21 = (fetch_btc_trend btcFetch).2.1 := rfl

/-! The claim theorems. -/

/-- C1: for every symbol evaluated with a valid indicator snapshot, the
integer score equals exactly the number of true conditions among the three
booleans; a row enters the snapshot iff the score is at least 1; and the
label is the full / near / warm pre-dip string exactly when the score is
3 / 2 / 1 respectively. -/
theorem c1_score_label (b : Bool) (s : String) (ind : Indicators) :
    score (cond1 b) (cond2 ind) (cond3 ind) = [cond1 b, cond2 ind, cond3 ind].count true
    ∧ (mkRow b s ind).isSome = decide (1 ≤ score (cond1 b) (cond2 ind) (cond3 ind))
    ∧ (mkRow b s ind).map Row.score =
        (if 1 ≤ score (cond1 b) (cond2 ind) (cond3 ind)
         then some (score (cond1 b) (cond2 ind) (cond3 ind)) else none)
    ∧ (mkRow b s ind).map Row.state =
        (if score (cond1 b) (cond2 ind) (cond3 ind) = 3 then some "🚨 FULL PRE-DIP"
         else if score (cond1 b) (cond2 ind) (cond3 ind) = 2 then some "⚠️ NEAR-DIP"
         else if score (cond1 b) (cond2 ind) (cond3 ind) = 1 then some "🔥 WARM-DIP"
         else none) := by
  cases h1 : cond1 b <;> cases h2 : cond2 ind <;> cases h3 : cond3 ind <;>
    simp [mkRow, score, stateOf, h1, h2, h3]

/-- C2: the structure condition holds iff lastClose < baseline − 0.3·atr and
lastVolume > volumeAverage·2.5; on the spec's worked example (lastClose 98,
baseline 100, atr 5, lastVolume 300, volumeAverage 100, rsi 22, trend true)
the evaluator yields score 3 and the full pre-dip label. -/
theorem c2_structure (ind : Indicators) :
    (cond2 ind = true ↔
      (ind.close < ind.base - (3 / 10 : ℚ) * ind.atr ∧ ind.vavg * (5 / 2 : ℚ) < ind.vol))
    ∧ (mkRow true "ETHUSDT" exampleInd).map (fun r => (r.score, r.state)) =
        some (3, "🚨 FULL PRE-DIP") := by
  constructor
  · simp only [cond2, BODY_FCTR, VOL_MULT, Bool.and_eq_true, decide_eq_true_eq]
  · with_unfolding_all rfl

/-- C2 at the worked example: the structure condition fires there. -/
theorem c2_witness : cond2 exampleInd = true :=
  (c2_structure exampleInd).1.mpr
    ⟨by with_unfolding_all decide, by with_unfolding_all decide⟩

set_option maxRecDepth 400000 in
/-- C3 (code bug): the code's oscillator is not a Wilder RSI.  Both its
"gain" and "loss" columns are rolling means of all close-to-close changes,
so loss = −delta, rs = −1 whenever the window mean is nonzero, and
`100 − 100/(1+rs)` divides by zero: the value entering scoring is −∞ (below
0, outside [0, 100]) on any window with nonzero mean change, and 0 — not the
claimed 100 — when the average loss over the window is zero (flat window).
The bogus value is published in the row. -/
theorem c3_rsi_code_bug :
    rsi_val flatCloses = PF.fin 0
    ∧ rsi_val risingCloses = PF.ninf
    ∧ PF.lt (rsi_val risingCloses) (PF.fin 0) = true
    ∧ (processSymbol false "ETHUSDT" risingSeries).map (fun r => (r.rsi, r.cond3)) =
        some (PF.ninf, true) := by
  refine ⟨?_, ?_, ?_, ?_⟩ <;> with_unfolding_all rfl

/-- C4: a symbol whose fetch produced fewer than 96 bars yields no indicator
snapshot and is entirely absent from the published snapshot. -/
theorem c4_insufficient (btcFetch : List Candle) (symFetch : String → List Candle)
    (s : String) (h : (symFetch s).length < ATR_LEN) :
    processSymbol (fetch_btc_trend btcFetch).2.2 s (symFetch s) = none
    ∧ (run_screening btcFetch symFetch).rows.filter (fun r => r.symbol == s) = [] := by
  refine ⟨processSymbol_short h, ?_⟩
  rw [run_filter_symbol]
  rw [List.filterMap_eq_nil_iff]
  intro t ht
  have hts : t = s := eq_of_beq (List.mem_filter.mp ht).2
  subst hts
  exact processSymbol_short h

/-- C4 at a concrete run: ADAUSDT's fetch returns no bars and ADAUSDT is
absent from the snapshot. -/
theorem c4_witness :
    processSymbol (fetch_btc_trend []).2.2 "ADAUSDT" (symFetchDrop "ADAUSDT" "ADAUSDT") = none
    ∧ (run_screening [] (symFetchDrop "ADAUSDT")).rows.filter
        (fun r => r.symbol == "ADAUSDT") = [] :=
  c4_insufficient [] (symFetchDrop "ADAUSDT") "ADAUSDT" (by with_unfolding_all decide)

/-- C5 counterexample: in the all-flat demo run all five scores tie and the
published order is the reverse universe order, so "BNBUSDT" is published
right before "ADAUSDT" in a tie: the claimed score-then-symbol-name total
order fails on this snapshot. -/
theorem c5_counterexample : ¬ resultOrdered (run_screening [] symFetchAll).rows := by
  rw [resultOrdered, run_demo]
  intro h
  have h1 := (List.pairwise_cons.mp h).1 (demoRow "BNBUSDT") (List.mem_cons_self _ _)
  rcases h1 with hlt | ⟨heq, hstr⟩
  · exact absurd hlt (by with_unfolding_all decide)
  · rw [String.lt_iff_toList_lt] at hstr
    exact absurd hstr (by decide)

/-- C5 amended: the published sequence is sorted by score descending, and
rows of equal score appear in reverse symbol-processing order (pandas
reverses its stable ascending argsort for `ascending=False`); there is no
symbol-name tiebreak. -/
theorem c5_amended (btcFetch : List Candle) (symFetch : String → List Candle) (k : ℕ) :
    (run_screening btcFetch symFetch).rows.Pairwise (fun a b => b.score ≤ a.score)
    ∧ (run_screening btcFetch symFetch).rows.filter (fun r => r.score == k) =
        ((screenRows (fetch_btc_trend btcFetch).2.2 symFetch).filter
          (fun r => r.score == k)).reverse := by
  rw [run_rows]
  exact ⟨sortRows_pairwise _, filter_sortRows k _⟩

/-- C6 counterexample: with the BTCUSDT 4h fetch failed the trend scalars are
zeroed, yet the snapshot is not empty — every symbol of the flat demo run
still scores 1 through the oscillator condition. -/
theorem c6_counterexample :
    (run_screening [] symFetchAll).btcClose = 0
    ∧ (run_screening [] symFetchAll).btcEma21 = 0
    ∧ (run_screening [] symFetchAll).rows ≠ [] := by
  refine ⟨rfl, rfl, ?_⟩
  rw [run_demo]
  simp

/-- C6 amended: when the reference fetch fails or returns fewer than 22 bars
the run degrades to zeroed trend scalars with the trend boolean false and
never aborts; screening continues, every published row carrying a false
trend condition — an empty snapshot is not guaranteed. -/
theorem c6_amended (btcFetch : List Candle) (symFetch : String → List Candle)
    (h : btcFetch.length < 22) :
    (run_screening btcFetch symFetch).btcClose = 0
    ∧ (run_screening btcFetch symFetch).btcEma21 = 0
    ∧ (run_screening btcFetch symFetch).rows.all (fun r => r.cond1 == false) = true := by
  have ht : fetch_btc_trend btcFetch = (0, 0, false) := by
    rw [fetch_btc_trend, if_pos h]
  refine ⟨by rw [run_btcClose, ht], by rw [run_btcEma21, ht], ?_⟩
  rw [List.all_eq_true]
  intro r hr
  rw [run_rows, ht] at hr
  have hr2 : r ∈ screenRows false symFetch := (sortRows_perm _).subset hr
  rw [screenRows] at hr2
  obtain ⟨t, htmem, hp⟩ := List.mem_filterMap.mp hr2
  rw [(processSymbol_fields hp).2]
  rfl

/-- C6 at a concrete degraded run. -/
theorem c6_witness :
    (run_screening [] symFetchAll).btcClose = 0
    ∧ (run_screening [] symFetchAll).btcEma21 = 0
    ∧ (run_screening [] symFetchAll).rows.all (fun r => r.cond1 == false) = true :=
  c6_amended [] symFetchAll (by decide)

/-- C7 counterexample: three failed attempts return the empty frame — the
very value a successful empty-body response returns — not a typed error, so
the caller cannot tell no-data from fetch-failed. -/
theorem c7_counterexample :
    fetch_ohlcv [FetchAttempt.err, FetchAttempt.err, FetchAttempt.err] = ([] : List Candle)
    ∧ fetch_ohlcv [FetchAttempt.ok []] = ([] : List Candle) := ⟨rfl, rfl⟩

/-- C7 amended: a candle fetch returns a plain frame with no error channel:
exhausting the attempts (and an empty-body success) returns the empty frame,
while the first successful nonempty response returns the fully populated
parsed frame. -/
theorem c7_amended (pre : List FetchAttempt) (data : List Kline)
    (hpre : ∀ a ∈ pre, a = FetchAttempt.err) :
    fetch_ohlcv (pre ++ [FetchAttempt.ok data]) =
      (if data.isEmpty then [] else data.map parseKline)
    ∧ fetch_ohlcv pre = [] := by
  induction pre with
  | nil => exact ⟨rfl, rfl⟩
  | cons a rest ih =>
      have ha : a = FetchAttempt.err := hpre a (List.mem_cons_self a rest)
      subst ha
      have ih2 := ih fun x hx => hpre x (List.mem_cons_of_mem _ hx)
      exact ⟨ih2.1, ih2.2⟩

/-- C7 at concrete attempt lists. -/
theorem c7_witness :
    fetch_ohlcv ([FetchAttempt.err, FetchAttempt.err] ++ [FetchAttempt.ok [demoKline]]) =
      (if ([demoKline] : List Kline).isEmpty then [] else [demoKline].map parseKline)
    ∧ fetch_ohlcv [FetchAttempt.err, FetchAttempt.err] = [] :=
  c7_amended [FetchAttempt.err, FetchAttempt.err] [demoKline]
    (by intro a ha; simpa using ha)

/-- C8 counterexample: the source's candle fetching carries no cache at all,
so two lookups of the same (symbol, interval, limit) key each issue their own
upstream request — two requests, not at most one, no matter how close
together in time they happen. -/
theorem c8_counterexample :
    ¬ (twoCandleLookups [FetchAttempt.ok [demoKline]] [FetchAttempt.ok [demoKline]] ≤ 1) := by
  with_unfolding_all decide

/-- C8 amended: the only cache is on `load_symbols` (TTL 15 minutes): a
second lookup within the TTL computes nothing new, a lookup at or after
expiry computes exactly once more; candle fetches are uncached and every
`fetch_ohlcv` call issues at least one upstream request. -/
theorem c8_amended (t1 t2 t3 : ℕ) (h2 : t2 < t1 + REFRESH_MIN * 60)
    (h3 : t1 + REFRESH_MIN * 60 ≤ t3) (att : List FetchAttempt) (hatt : att ≠ []) :
    load_symbols_computes [t1, t2] = 1
    ∧ load_symbols_computes [t1, t3] = 2
    ∧ 1 ≤ fetch_requests att := by
  refine ⟨?_, ?_, ?_⟩
  · simp [load_symbols_computes, cacheComputes, h2]
  · simp [load_symbols_computes, cacheComputes, Nat.not_lt.mpr h3]
  · cases att with
    | nil => exact absurd rfl hatt
    | cons a rest =>
        cases a with
        | ok data => exact Nat.le_refl 1
        | err => rw [fetch_requests]; exact Nat.le_add_left 1 _

/-- C8 at concrete lookup times 0, 1 and 900 (= the 15-minute TTL). -/
theorem c8_witness :
    load_symbols_computes [0, 1] = 1
    ∧ load_symbols_computes [0, 900] = 2
    ∧ 1 ≤ fetch_requests [FetchAttempt.err, FetchAttempt.err, FetchAttempt.err] :=
  c8_amended 0 1 900 (by with_unfolding_all decide) (by with_unfolding_all decide) _
    (by simp)

/-- C9: two runs over the same universe that differ only in one symbol's
fetch outcome publish identical results for every other symbol; a fetch
failure never aborts the run (the embedded run is a total function). -/
theorem c9_isolation (btcFetch : List Candle) (f g : String → List Candle)
    (s0 : String) (hfg : ∀ t, t ≠ s0 → f t = g t) (s : String) (hs : s ≠ s0) :
    (run_screening btcFetch f).rows.filter (fun r => r.symbol == s) =
      (run_screening btcFetch g).rows.filter (fun r => r.symbol == s) := by
  rw [run_filter_symbol, run_filter_symbol]
  apply List.filterMap_congr
  intro t ht
  have hts : t = s := eq_of_beq (List.mem_filter.mp ht).2
  subst hts
  rw [hfg t hs]

/-- C9 at a concrete pair of runs: XRPUSDT's fetch fails in one of them and
BTCUSDT's published result is the same in both. -/
theorem c9_witness :
    (run_screening [] symFetchAll).rows.filter (fun r => r.symbol == "BTCUSDT") =
      (run_screening [] (symFetchDrop "XRPUSDT")).rows.filter
        (fun r => r.symbol == "BTCUSDT") :=
  c9_isolation [] symFetchAll (symFetchDrop "XRPUSDT") "XRPUSDT"
    (fun t ht => by simp only [symFetchAll, symFetchDrop]; rw [if_neg ht])
    "BTCUSDT" (by decide)

/-- C10: the universe is the constant five-symbol list, in this order, and
every row any run publishes belongs to one of those five symbols. -/
theorem c10_symbols (btcFetch : List Candle) (symFetch : String → List Candle) :
    load_symbols = ["BTCUSDT", "ETHUSDT", "ADAUSDT", "BNBUSDT", "XRPUSDT"]
    ∧ (run_screening btcFetch symFetch).rows.all
        (fun r => decide (r.symbol ∈ load_symbols)) = true := by
  refine ⟨rfl, ?_⟩
  rw [List.all_eq_true]
  intro r hr
  rw [run_rows] at hr
  have hr2 : r ∈ screenRows (fetch_btc_trend btcFetch).2.2 symFetch :=
    (sortRows_perm _).subset hr
  rw [screenRows] at hr2
  obtain ⟨t, htmem, hp⟩ := List.mem_filterMap.mp hr2
  rw [decide_eq_true_eq, (processSymbol_fields hp).1]
  exact htmem

end CryptoScreener
